import Mathlib

/-!
Verification of the wellnown-env registration / heartbeat / discovery /
drift-detection subsystem.

This file gives a shallow embedding of the relevant Go code:

* `registry/types.go` — `FieldInfo`, `GitHubInfo`, `InstanceInfo`,
  `ServiceRegistration`, `ServiceRegistration.KVKey`.
* `cmd/wellknown-check/main.go` — `compareFields`, `selfCheckChanges`,
  `checkDependencies`, `checkConsumerImpact`, `run` (flag dispatch and exit
  code).
* `pkg/env/fields.go` — `ExtractFields` / `extractFieldsRecursive` /
  `parseConfTag` / `buildEnvKey` / `GetDependencies`.
* `pkg/env/register.go` — `Registrar` (heartbeat loop vs `Deregister`,
  modelled as an interleaving transition system; `Deregister`'s channel
  close modelled separately for the double-call case).
* `pkg/env/discovery.go` — `ServiceWatcher` goroutine loop and `Stop`,
  modelled as an interleaving transition system.

Go string primitives used by the code (`strings.Split`, `strings.TrimSpace`,
`strings.HasPrefix`, `strings.TrimPrefix`, `strings.ReplaceAll`,
`strings.ToUpper`, `strings.SplitN`) are modelled by structurally recursive
functions over `List Char` so that every definition evaluates inside the
kernel; the registry strings are ASCII, for which these agree with Go.
-/

namespace WellKnown

/-! ### Go string helpers (ASCII models of the strings package) -/

/-- Model of `strings.Split(s, ",")` for a one-character separator:
splits on every occurrence of the separator. `splitChar c [] = [[]]`,
matching `strings.Split("", sep) = [""]`. -/
def splitChar (sep : Char) : List Char → List (List Char)
  | [] => [[]]
  | c :: rest =>
    if c = sep then [] :: splitChar sep rest
    else
      match splitChar sep rest with
      | [] => [[c]]
      | h :: t => (c :: h) :: t

/-- ASCII whitespace, as recognised by `strings.TrimSpace` on ASCII input. -/
def isSpaceChar (c : Char) : Bool :=
  c = ' ' || c = '\t' || c = '\n' || c = '\r'

/-- Model of `strings.TrimSpace` (ASCII): drop leading and trailing spaces. -/
def trimSpace (l : List Char) : List Char :=
  ((l.dropWhile isSpaceChar).reverse.dropWhile isSpaceChar).reverse

/-- Model of `strings.ToUpper` (ASCII). -/
def toUpperChars (l : List Char) : List Char :=
  l.map Char.toUpper

/-- Model of `strings.ReplaceAll(s, ".", "_")`: the pattern is a single
character, so replacement is a pointwise map. -/
def replaceDotUnderscore (l : List Char) : List Char :=
  l.map fun c => if c = '.' then '_' else c

/-- Model of `strings.SplitN(s, "/", 2)`: split at the first slash only;
a string with no slash yields a one-element list. -/
def splitN2Slash : List Char → List (List Char)
  | [] => [[]]
  | c :: rest =>
    if c = '/' then [[], rest]
    else
      match splitN2Slash rest with
      | [] => [[c]]
      | h :: t => (c :: h) :: t

/-- String wrapper for `splitChar`. -/
def goSplit (sep : Char) (s : String) : List String :=
  (splitChar sep s.data).map String.mk

/-- String wrapper for `trimSpace` (`strings.TrimSpace`). -/
def goTrim (s : String) : String :=
  String.mk (trimSpace s.data)

/-- Model of `strings.HasPrefix`. -/
def goHasPrefix (pre s : String) : Bool :=
  pre.data.isPrefixOf s.data

/-- Model of `strings.TrimPrefix(s, pre)` under the assumption that the
prefix is present (the code always guards with `strings.HasPrefix`). -/
def goDropLen (pre s : String) : String :=
  String.mk (s.data.drop pre.data.length)

/-- String wrapper for `toUpperChars` (`strings.ToUpper`). -/
def goToUpper (s : String) : String :=
  String.mk (toUpperChars s.data)

/-- String wrapper for `splitN2Slash` (`strings.SplitN(s, "/", 2)`). -/
def goSplitN2 (s : String) : List String :=
  (splitN2Slash s.data).map String.mk

/-! ### Data model (`pkg/env/registry/types.go`) -/

/-- Embedding of `registry.FieldInfo`. The Go field `Type` is named `Typ`
here because `Type` is reserved in Lean. -/
structure FieldInfo where
  Path : String
  Typ : String
  EnvKey : String
  Default : String
  Required : Bool
  IsSecret : Bool
  Dependency : String
  deriving DecidableEq, Repr

/-- Embedding of `registry.GitHubInfo`. -/
structure GitHubInfo where
  Org : String
  Repo : String
  Commit : String
  Tag : String
  Branch : String
  deriving DecidableEq, Repr

/-- Embedding of `registry.InstanceInfo`. The Go field `Started` has type
`time.Time`; it is modelled opaquely as a string, since no operation in the
embedded code inspects it. -/
structure InstanceInfo where
  ID : String
  Host : String
  Started : String
  deriving DecidableEq, Repr

/-- Embedding of `registry.ServiceRegistration`. -/
structure ServiceRegistration where
  GitHub : GitHubInfo
  Instance : InstanceInfo
  Fields : List FieldInfo
  deriving DecidableEq, Repr

/-- Embedding of `registry.ServiceRegistration.KVKey`:
`r.GitHub.Org + "." + r.GitHub.Repo + "." + r.Instance.ID`. -/
def ServiceRegistration.KVKey (r : ServiceRegistration) : String :=
  r.GitHub.Org ++ "." ++ r.GitHub.Repo ++ "." ++ r.Instance.ID

/-! ### Drift checker (`cmd/wellknown-check/main.go`, `compareFields`)

The Go function builds two `map[string]registry.FieldInfo` keyed by
`EnvKey` and iterates over them.  A Go map is modelled by

* `mapLookup` — the binding of a key is the value of the *last* insertion
  for that key (later `m[k] = v` overwrites earlier ones, and the maps are
  populated by iterating over the slice in order); and
* `mapKeys` — iteration visits every key exactly once.  Go's map iteration
  order is unspecified, so the model fixes an arbitrary one (`List.dedup`
  of the key slice); every theorem proved below is insensitive to this
  order.
-/

/-- Lookup in the Go map built from `fs` by `m[f.EnvKey] = f` in slice
order: the last field with the given key. -/
def mapLookup (fs : List FieldInfo) (k : String) : Option FieldInfo :=
  fs.reverse.find? fun f => f.EnvKey = k

/-- Key set of the Go map built from `fs`: each distinct `EnvKey` once. -/
def mapKeys (fs : List FieldInfo) : List String :=
  (fs.map FieldInfo.EnvKey).dedup

/-- One printed line of `compareFields`:
`added k r` is `"+ k (new[, required])"` (with `r` the `Required` flag of
the current field), `removed k` is `"- k (removed)"`, and
`modified k cs` is `"~ k: cs"` where `cs` has one element per changed
attribute. -/
inductive DriftEntry where
  | added (key : String) (required : Bool)
  | removed (key : String)
  | modified (key : String) (changes : List String)
  deriving DecidableEq, Repr

/-- The `changes` slice accumulated by `compareFields` for a field present
in both maps: one entry per differing attribute, in the order the code
checks them (`Default`, then `Required`, then `IsSecret`). -/
def fieldChanges (curr pr : FieldInfo) : List String :=
  (if curr.Default ≠ pr.Default then
    ["default: " ++ pr.Default ++ " -> " ++ curr.Default] else []) ++
  (if curr.Required ≠ pr.Required then
    [if curr.Required then "now required" else "no longer required"] else []) ++
  (if curr.IsSecret ≠ pr.IsSecret then
    [if curr.IsSecret then "now secret" else "no longer secret"] else [])

/-- Embedding of `compareFields(current, pr)`: the sequence of printed
drift lines.  The three loops are, in source order: keys of `currentMap`
absent from `prMap` print `"+ ... (new)"`; keys of `prMap` absent from
`currentMap` print `"- ... (removed)"`; keys present in both print a
`"~"` line when at least one of `Default`/`Required`/`IsSecret` differs. -/
def compareFields (current pr : List FieldInfo) : List DriftEntry :=
  let addedE := (mapKeys current).filterMap fun k =>
    match mapLookup current k with
    | some f => if mapLookup pr k = none then some (DriftEntry.added k f.Required) else none
    | none => none
  let removedE := (mapKeys pr).filterMap fun k =>
    if mapLookup current k = none then some (DriftEntry.removed k) else none
  let modifiedE := (mapKeys current).filterMap fun k =>
    match mapLookup current k, mapLookup pr k with
    | some f, some g =>
      let cs := fieldChanges f g
      if cs = [] then none else some (DriftEntry.modified k cs)
    | _, _ => none
  addedE ++ removedE ++ modifiedE

/-! ### Basic lemmas about the Go-map model -/

theorem mapLookup_eq_none_iff (fs : List FieldInfo) (k : String) :
    mapLookup fs k = none ↔ ∀ f ∈ fs, f.EnvKey ≠ k := by
  simp [mapLookup, List.find?_eq_none]

theorem mapLookup_isSome (fs : List FieldInfo) (k : String)
    (h : ∃ f ∈ fs, f.EnvKey = k) :
    ∃ g, mapLookup fs k = some g ∧ g.EnvKey = k := by
  cases hl : mapLookup fs k with
  | none =>
    obtain ⟨f, hf, hfk⟩ := h
    exact absurd hfk ((mapLookup_eq_none_iff fs k).mp hl f hf)
  | some g =>
    refine ⟨g, rfl, ?_⟩
    have := List.find?_some hl
    simpa using this

theorem mapLookup_mem (fs : List FieldInfo) (k : String) (g : FieldInfo)
    (h : mapLookup fs k = some g) : g ∈ fs ∧ g.EnvKey = k := by
  refine ⟨?_, by simpa using List.find?_some h⟩
  have := List.mem_of_find?_eq_some h
  simpa using this

theorem mem_mapKeys_iff (fs : List FieldInfo) (k : String) :
    k ∈ mapKeys fs ↔ ∃ f ∈ fs, f.EnvKey = k := by
  simp [mapKeys, List.mem_dedup, List.mem_map, eq_comm]

theorem fieldChanges_self (f : FieldInfo) : fieldChanges f f = [] := by
  simp [fieldChanges]

/-- If a list has no duplicates, contains `k`, the function fires at `k`,
and gives `none` everywhere else, then `filterMap` returns exactly the
value at `k`. -/
theorem filterMap_nodup_single {α β : Type} (l : List α) (f : α → Option β)
    (k : α) (v : β) (hnd : l.Nodup) (hk : k ∈ l) (hfk : f k = some v)
    (hother : ∀ a ∈ l, a ≠ k → f a = none) : l.filterMap f = [v] := by
  induction l with
  | nil => cases hk
  | cons a t ih =>
    obtain ⟨ha, ht⟩ := List.nodup_cons.mp hnd
    rcases List.mem_cons.mp hk with rfl | hk'
    · rw [List.filterMap_cons, hfk]
      have hnil : t.filterMap f = [] := by
        refine List.filterMap_eq_nil_iff.mpr fun b hb => ?_
        exact hother b (List.mem_cons_of_mem _ hb) fun he => ha (he ▸ hb)
      rw [hnil]
    · have hak : a ≠ k := fun he => ha (he ▸ hk')
      rw [List.filterMap_cons, hother a (List.mem_cons_self a t) hak]
      exact ih ht hk' fun b hb hbk => hother b (List.mem_cons_of_mem _ hb) hbk

/-! ### Claim C9 — `Diff(X, X) = []` -/

/-- C9 (confirmed): comparing a field-descriptor set against itself
produces no drift entries: `compareFields X X = []`. -/
theorem compareFields_self_diff_empty (X : List FieldInfo) :
    compareFields X X = [] := by
  unfold compareFields
  have hadded : ((mapKeys X).filterMap fun k =>
      match mapLookup X k with
      | some f => if mapLookup X k = none then some (DriftEntry.added k f.Required) else none
      | none => none) = [] := by
    refine List.filterMap_eq_nil_iff.mpr fun k hk => ?_
    obtain ⟨g, hg, _⟩ := mapLookup_isSome X k ((mem_mapKeys_iff X k).mp hk)
    rw [hg]
    simp
  have hremoved : ((mapKeys X).filterMap fun k =>
      if mapLookup X k = none then some (DriftEntry.removed k) else none) = [] := by
    refine List.filterMap_eq_nil_iff.mpr fun k hk => ?_
    obtain ⟨g, hg, _⟩ := mapLookup_isSome X k ((mem_mapKeys_iff X k).mp hk)
    rw [hg]
    simp
  have hmodified : ((mapKeys X).filterMap fun k =>
      match mapLookup X k, mapLookup X k with
      | some f, some g =>
        let cs := fieldChanges f g
        if cs = [] then none else some (DriftEntry.modified k cs)
      | _, _ => none) = [] := by
    refine List.filterMap_eq_nil_iff.mpr fun k hk => ?_
    obtain ⟨g, hg, _⟩ := mapLookup_isSome X k ((mem_mapKeys_iff X k).mp hk)
    rw [hg]
    simp [fieldChanges_self]
  rw [hadded, hremoved, hmodified]
  rfl

/-! ### Claim C1 — direction of Added/Removed in `compareFields` -/

/-- The `APP_OLD_FLAG` descriptor of the spec's scenario: present only in
the `current` set. -/
def fOldFlag : FieldInfo :=
  ⟨"OldFlag", "string", "APP_OLD_FLAG", "", false, false, ""⟩

/-- The `APP_NEW_FEATURE` descriptor of the spec's scenario: required,
present only in the `candidate` (`pr`) set. -/
def fNewFeature : FieldInfo :=
  ⟨"NewFeature", "string", "APP_NEW_FEATURE", "", true, false, ""⟩

/-- C1 counterexample: with `current = [APP_OLD_FLAG]` and
`candidate = [APP_NEW_FEATURE (required)]` the claim (and the spec's own
scenario) predicts `Removed(APP_OLD_FLAG)` and a breaking
`Added(APP_NEW_FEATURE)`.  The code produces neither: it prints
`+ APP_OLD_FLAG (new)` and `- APP_NEW_FEATURE (removed)` — the roles of
Added and Removed are swapped relative to the (current, candidate)
argument order. -/
theorem compareFields_direction_counterexample :
    ¬ (DriftEntry.removed "APP_OLD_FLAG" ∈ compareFields [fOldFlag] [fNewFeature] ∨
       DriftEntry.added "APP_NEW_FEATURE" true ∈ compareFields [fOldFlag] [fNewFeature]) ∧
    compareFields [fOldFlag] [fNewFeature] =
      [DriftEntry.added "APP_OLD_FLAG" false, DriftEntry.removed "APP_NEW_FEATURE"] := by
  constructor
  · decide
  · decide

/-- C1 (amended): a field whose envKey is present in `current` and absent
in `candidate` is reported as `Added` ("new"), carrying the current
field's `Required` flag; a field whose envKey is present in `candidate`
and absent in `current` is reported as `Removed`. -/
theorem compareFields_added_removed_direction (cur pr : List FieldInfo) (k : String) :
    ((∃ f ∈ cur, f.EnvKey = k) → (∀ g ∈ pr, g.EnvKey ≠ k) →
      ∃ f, mapLookup cur k = some f ∧
        DriftEntry.added k f.Required ∈ compareFields cur pr) ∧
    ((∃ g ∈ pr, g.EnvKey = k) → (∀ f ∈ cur, f.EnvKey ≠ k) →
      DriftEntry.removed k ∈ compareFields cur pr) := by
  constructor
  · intro hc hp
    obtain ⟨f, hf, _⟩ := mapLookup_isSome cur k hc
    have hpnone : mapLookup pr k = none := (mapLookup_eq_none_iff pr k).mpr hp
    refine ⟨f, hf, ?_⟩
    have hmem : DriftEntry.added k f.Required ∈ (mapKeys cur).filterMap fun k' =>
        match mapLookup cur k' with
        | some f' => if mapLookup pr k' = none then some (DriftEntry.added k' f'.Required) else none
        | none => none := by
      refine List.mem_filterMap.mpr ⟨k, (mem_mapKeys_iff cur k).mpr hc, ?_⟩
      rw [hf, hpnone]
      simp
    unfold compareFields
    exact List.mem_append_left _ (List.mem_append_left _ hmem)
  · intro hp hc
    have hcnone : mapLookup cur k = none := (mapLookup_eq_none_iff cur k).mpr hc
    have hmem : DriftEntry.removed k ∈ (mapKeys pr).filterMap fun k' =>
        if mapLookup cur k' = none then some (DriftEntry.removed k') else none := by
      refine List.mem_filterMap.mpr ⟨k, (mem_mapKeys_iff pr k).mpr hp, ?_⟩
      rw [hcnone]
      simp
    unfold compareFields
    exact List.mem_append_left _ (List.mem_append_right _ hmem)

/-- C1 witness: the amended theorem evaluated on the scenario pair. -/
theorem compareFields_added_removed_direction_witness :
    (∃ f, mapLookup [fOldFlag] "APP_OLD_FLAG" = some f ∧
      DriftEntry.added "APP_OLD_FLAG" f.Required ∈ compareFields [fOldFlag] [fNewFeature]) ∧
    DriftEntry.removed "APP_NEW_FEATURE" ∈ compareFields [fOldFlag] [fNewFeature] :=
  ⟨(compareFields_added_removed_direction [fOldFlag] [fNewFeature] "APP_OLD_FLAG").1
      (by decide) (by decide),
   (compareFields_added_removed_direction [fOldFlag] [fNewFeature] "APP_NEW_FEATURE").2
      (by decide) (by decide)⟩

/-! ### Claim C5 — Modified entries: one per field, not one per attribute -/

/-- The change lists of the `Modified` entries for key `k` among a list of
drift entries. -/
def modifiedEntriesFor (es : List DriftEntry) (k : String) : List (List String) :=
  es.filterMap fun e =>
    match e with
    | DriftEntry.modified k' cs => if k' = k then some cs else none
    | _ => none

/-- A current field whose default and required flag both differ from the
candidate's. -/
def fCurX : FieldInfo := ⟨"X", "string", "APP_X", "a", true, false, ""⟩

/-- The candidate version of `fCurX`: default "b", not required. -/
def fPrX : FieldInfo := ⟨"X", "string", "APP_X", "b", false, false, ""⟩

/-- C5 counterexample: a field with two changed attributes (default and
required) yields ONE `Modified` entry carrying two change descriptions,
not two entries as the claim states. -/
theorem compareFields_modified_single_entry_counterexample :
    (compareFields [fCurX] [fPrX]).length ≠ 2 ∧
    compareFields [fCurX] [fPrX] =
      [DriftEntry.modified "APP_X" ["default: b -> a", "now required"]] := by
  constructor
  · decide
  · decide

/-- C5 (amended): for a field present in both sets with at least one
changed attribute, `compareFields` produces exactly one `Modified` entry
for that field, whose change list has one element per changed attribute
(so a field with two changed attributes yields one entry with two change
descriptions). -/
theorem compareFields_modified_per_field (cur pr : List FieldInfo) (k : String)
    (f g : FieldInfo) (hc : mapLookup cur k = some f) (hp : mapLookup pr k = some g)
    (hne : fieldChanges f g ≠ []) :
    modifiedEntriesFor (compareFields cur pr) k = [fieldChanges f g] ∧
    (fieldChanges f g).length =
      ((if f.Default = g.Default then 0 else 1) +
       (if f.Required = g.Required then 0 else 1) +
       (if f.IsSecret = g.IsSecret then 0 else 1)) := by
  constructor
  · have hkc : k ∈ mapKeys cur := by
      obtain ⟨hmem, hkey⟩ := mapLookup_mem cur k f hc
      exact (mem_mapKeys_iff cur k).mpr ⟨f, hmem, hkey⟩
    unfold compareFields modifiedEntriesFor
    rw [List.filterMap_append, List.filterMap_append]
    have haddnil : (((mapKeys cur).filterMap fun k' =>
        match mapLookup cur k' with
        | some f' => if mapLookup pr k' = none then some (DriftEntry.added k' f'.Required) else none
        | none => none).filterMap fun e =>
          match e with
          | DriftEntry.modified k' cs => if k' = k then some cs else none
          | _ => none) = [] := by
      rw [List.filterMap_filterMap]
      refine List.filterMap_eq_nil_iff.mpr fun a _ => ?_
      cases hla : mapLookup cur a with
      | none => simp
      | some fa =>
        by_cases hpa : mapLookup pr a = none <;> simp [hla, hpa]
    have hremnil : (((mapKeys pr).filterMap fun k' =>
        if mapLookup cur k' = none then some (DriftEntry.removed k') else none).filterMap fun e =>
          match e with
          | DriftEntry.modified k' cs => if k' = k then some cs else none
          | _ => none) = [] := by
      rw [List.filterMap_filterMap]
      refine List.filterMap_eq_nil_iff.mpr fun a _ => ?_
      by_cases hca : mapLookup cur a = none <;> simp [hca]
    rw [haddnil, hremnil]
    rw [List.filterMap_filterMap]
    rw [List.nil_append, List.nil_append]
    refine filterMap_nodup_single _ _ k (fieldChanges f g) (List.nodup_dedup _) hkc ?_ ?_
    · rw [hc, hp]
      simp [hne]
    · intro a _ hak
      cases hla : mapLookup cur a with
      | none => simp
      | some fa =>
        cases hpa : mapLookup pr a with
        | none => simp [hla, hpa]
        | some ga =>
          by_cases hcs : fieldChanges fa ga = [] <;> simp [hla, hpa, hcs, hak]
  · by_cases h1 : f.Default = g.Default <;>
      by_cases h2 : f.Required = g.Required <;>
      by_cases h3 : f.IsSecret = g.IsSecret <;>
      simp [fieldChanges, h1, h2, h3]

/-- C5 witness: the amended theorem evaluated on the two-attribute
example. -/
theorem compareFields_modified_per_field_witness :
    modifiedEntriesFor (compareFields [fCurX] [fPrX]) "APP_X" = [fieldChanges fCurX fPrX] ∧
    (fieldChanges fCurX fPrX).length =
      ((if fCurX.Default = fPrX.Default then 0 else 1) +
       (if fCurX.Required = fPrX.Required then 0 else 1) +
       (if fCurX.IsSecret = fPrX.IsSecret then 0 else 1)) :=
  compareFields_modified_per_field [fCurX] [fPrX] "APP_X" fCurX fPrX
    (by decide) (by decide) (by decide)

/-! ### Field extractor (`pkg/env/fields.go`)

`ExtractFields` reflects over a configuration struct.  The reflected
struct graph is embedded as a mutual inductive: a Go type is a scalar
(any non-struct, non-pointer kind), a pointer, or a struct with an
ordered field list; each field carries its name, exported flag,
anonymous (embedded) flag, type and `conf` tag (`""` when absent). -/

mutual
inductive GoType where
  | scalar (typeName : String)
  | ptr (elem : GoType)
  | strukt (fields : GoFields)
inductive GoFields where
  | nil
  | cons (name : String) (exported anonymous : Bool) (typ : GoType)
         (tag : String) (rest : GoFields)
end

/-- Model of `reflect.Type.Kind() == reflect.Struct` (no dereference:
the code checks the field's kind directly, so a pointer-to-struct field
counts as a leaf). -/
def GoType.isStruct : GoType → Bool
  | .strukt _ => true
  | _ => false

/-- Model of `reflect.Type.String()`.  The exact rendering of struct
types is irrelevant to every claim; scalars carry their own name. -/
def GoType.typeString : GoType → String
  | .scalar n => n
  | .ptr e => "*" ++ GoType.typeString e
  | .strukt _ => "struct"

/-- Embedding of `buildEnvKey`: replace dots with underscores, uppercase,
and prepend the uppercased prefix when non-empty. -/
def buildEnvKey (pre path : String) : String :=
  let key := goToUpper (String.mk (replaceDotUnderscore path.data))
  if pre ≠ "" then goToUpper pre ++ "_" ++ key else key

/-- One iteration of the `parseConfTag` switch over a comma-separated tag
part: `default:`, `env:`, `service:` prefixes, then `required`, `mask`,
`noprint`, in source order. -/
def applyTagPart (fi : FieldInfo) (raw : String) : FieldInfo :=
  let part := goTrim raw
  if goHasPrefix "default:" part then { fi with Default := goDropLen "default:" part }
  else if goHasPrefix "env:" part then { fi with EnvKey := goDropLen "env:" part }
  else if goHasPrefix "service:" part then { fi with Dependency := goDropLen "service:" part }
  else if part = "required" then { fi with Required := true }
  else if part = "mask" then { fi with IsSecret := true }
  else if part = "noprint" then { fi with IsSecret := true }
  else fi

/-- Embedding of `parseConfTag`. -/
def parseConfTag (pre path typeName tag : String) : FieldInfo :=
  let fi : FieldInfo := ⟨path, typeName, buildEnvKey pre path, "", false, false, ""⟩
  if tag = "" then fi
  else (goSplit ',' tag).foldl applyTagPart fi

mutual
/-- Embedding of `extractFieldsRecursive`: dereference a single pointer
level, return nothing for non-structs, and walk the fields of a struct
in declaration order. -/
def extractFieldsRecursive (pre path : String) : GoType → List FieldInfo
  | .strukt fs => extractLoop pre path fs
  | .ptr (.strukt fs) => extractLoop pre path fs
  | _ => []
/-- The field loop of `extractFieldsRecursive`: skip unexported fields;
recurse into anonymous (embedded) fields with the SAME path; recurse into
untagged struct fields with the extended path; everything else is a leaf
handed to `parseConfTag`. -/
def extractLoop (pre path : String) : GoFields → List FieldInfo
  | .nil => []
  | .cons name exported anonymous typ tag rest =>
    (if exported = false then []
     else if anonymous then extractFieldsRecursive pre path typ
     else if typ.isStruct ∧ tag = "" then
       extractFieldsRecursive pre (if path = "" then name else path ++ "." ++ name) typ
     else [parseConfTag pre (if path = "" then name else path ++ "." ++ name)
             typ.typeString tag])
    ++ extractLoop pre path rest
end

/-- Embedding of `ExtractFields(prefix, cfg)`. -/
def ExtractFields (pre : String) (cfg : GoType) : List FieldInfo :=
  extractFieldsRecursive pre "" cfg

/-- Embedding of `GetDependencies`: first occurrence of each non-empty
`Dependency`, in field order.  The Go `seen` map always contains exactly
the elements of the accumulated `deps` slice, so the slice itself serves
as the seen-set. -/
def GetDependencies (fields : List FieldInfo) : List String :=
  fields.foldl (fun deps f =>
    if f.Dependency ≠ "" ∧ ¬ deps.contains f.Dependency then deps ++ [f.Dependency]
    else deps) []

/-! ### Claim C4 — declaration order, one descriptor per leaf, envKey
uniqueness -/

mutual
/-- Modelled from the spec (§4.2): the dotted paths of the leaf fields of
a configuration description, in declaration order — recursing into
nested and embedded structures, not recursing into tagged (opaque)
fields, skipping unexported fields. -/
def leafPathsRec (path : String) : GoType → List String
  | .strukt fs => leafPathsLoop path fs
  | .ptr (.strukt fs) => leafPathsLoop path fs
  | _ => []
/-- The field-list part of `leafPathsRec`. -/
def leafPathsLoop (path : String) : GoFields → List String
  | .nil => []
  | .cons name exported anonymous typ tag rest =>
    (if exported = false then []
     else if anonymous then leafPathsRec path typ
     else if typ.isStruct ∧ tag = "" then
       leafPathsRec (if path = "" then name else path ++ "." ++ name) typ
     else [if path = "" then name else path ++ "." ++ name])
    ++ leafPathsLoop path rest
end

theorem applyTagPart_path (fi : FieldInfo) (raw : String) :
    (applyTagPart fi raw).Path = fi.Path := by
  unfold applyTagPart
  dsimp only
  split_ifs <;> rfl

theorem foldl_applyTagPart_path (l : List String) (fi : FieldInfo) :
    (l.foldl applyTagPart fi).Path = fi.Path := by
  induction l generalizing fi with
  | nil => rfl
  | cons a t ih => rw [List.foldl_cons, ih, applyTagPart_path]

theorem parseConfTag_path (pre path typeName tag : String) :
    (parseConfTag pre path typeName tag).Path = path := by
  unfold parseConfTag
  split
  · rfl
  · exact foldl_applyTagPart_path _ _

mutual
theorem extractFieldsRecursive_paths (pre path : String) (t : GoType) :
    (extractFieldsRecursive pre path t).map FieldInfo.Path = leafPathsRec path t := by
  cases t with
  | scalar n => rfl
  | strukt fs => exact extractLoop_paths pre path fs
  | ptr e =>
    cases e with
    | scalar n => rfl
    | strukt fs => exact extractLoop_paths pre path fs
    | ptr e2 => rfl
theorem extractLoop_paths (pre path : String) (fs : GoFields) :
    (extractLoop pre path fs).map FieldInfo.Path = leafPathsLoop path fs := by
  cases fs with
  | nil => rfl
  | cons name exported anonymous typ tag rest =>
    simp only [extractLoop, leafPathsLoop, List.map_append]
    refine congrArg₂ (· ++ ·) ?_ (extractLoop_paths pre path rest)
    split_ifs <;> first
      | rfl
      | exact extractFieldsRecursive_paths pre path typ
      | exact extractFieldsRecursive_paths pre _ typ
      | simp [parseConfTag_path]
end

/-- C4 (amended): for every configuration description and prefix,
`ExtractFields` returns the descriptors in declaration order — its list
of paths is exactly the declaration-order list of leaf-field paths — and
hence exactly one descriptor per leaf field.  (EnvKey uniqueness does NOT
hold in general; see the counterexample.) -/
theorem extractFields_declaration_order (pre : String) (t : GoType) :
    (ExtractFields pre t).map FieldInfo.Path = leafPathsRec "" t ∧
    (ExtractFields pre t).length = (leafPathsRec "" t).length := by
  refine ⟨extractFieldsRecursive_paths pre "" t, ?_⟩
  have h := congrArg List.length (extractFieldsRecursive_paths pre "" t)
  rw [List.length_map] at h
  exact h

/-- A struct with two fields that both override their env key to `X`. -/
def cfgDupEnv : GoType :=
  GoType.strukt (GoFields.cons "A" true false (GoType.scalar "string") "env:X"
    (GoFields.cons "B" true false (GoType.scalar "string") "env:X" GoFields.nil))

/-- C4 counterexample: two fields carrying the tag `env:X` produce two
descriptors with the same envKey, so envKey is NOT unique within a
descriptor set for every configuration description. -/
theorem extractFields_dup_envkey_counterexample :
    ¬ ((ExtractFields "APP" cfgDupEnv).Pairwise fun a b => a.EnvKey ≠ b.EnvKey) ∧
    (ExtractFields "APP" cfgDupEnv).map FieldInfo.EnvKey = ["X", "X"] := by
  constructor
  · decide
  · decide

/-! ### Discovery snapshot reads (`pkg/env/discovery.go`) and the
drift-checking CLI (`cmd/wellknown-check/main.go`)

The KV bucket is modelled as the list of its keys paired with, for each
key, the parsed registration — `none` models a failed `Get` or a
malformed value, both of which the code skips per entry. -/

abbrev KVModel := List (String × Option ServiceRegistration)

/-- Embedding of `GetService`: split `org/repo` at the first slash
(`strings.SplitN(name, "/", 2)`), error unless that yields two parts,
then keep every key with prefix `org.repo.` whose value reads and parses,
skipping per-entry failures. -/
def GetService (kv : KVModel) (name : String) : Except String (List ServiceRegistration) :=
  match goSplitN2 name with
  | [org, repo] =>
    Except.ok (kv.filterMap fun p =>
      if goHasPrefix (org ++ "." ++ repo ++ ".") p.1 then p.2 else none)
  | _ => Except.error ("invalid service name " ++ name ++ ", expected org/repo")

/-- Embedding of `ServiceExists`: at least one instance of the service. -/
def ServiceExists (kv : KVModel) (name : String) : Except String Bool :=
  match GetService kv name with
  | Except.error e => Except.error e
  | Except.ok instances => Except.ok (decide (instances.length > 0))

/-- Embedding of `GetAllServices`: every key whose value reads and
parses, skipping per-entry failures. -/
def GetAllServices (kv : KVModel) : List ServiceRegistration :=
  kv.filterMap Prod.snd

/-- Outcome of the `--pr-schema` file for `selfCheckChanges`:
`os.ReadFile` failure, `json.Unmarshal` failure, or a parsed
registration. -/
inductive FileRead where
  | readError
  | parseError
  | ok (r : ServiceRegistration)
  deriving DecidableEq, Repr

/-- Embedding of `selfCheckChanges`: errors only when the registration is
missing or the PR-schema file cannot be read or parsed.  When the schema
parses, the field comparison is PRINTED (returned here as the drift-entry
list) and the function returns nil regardless of its content. -/
def selfCheckChanges (reg : Option ServiceRegistration) (prSchema : Option FileRead) :
    Except String (List DriftEntry) :=
  match reg with
  | none => Except.error "no registration available"
  | some r =>
    match prSchema with
    | none => Except.ok []
    | some FileRead.readError => Except.error "reading PR schema"
    | some FileRead.parseError => Except.error "parsing PR schema"
    | some (FileRead.ok prReg) => Except.ok (compareFields r.Fields prReg.Fields)

/-- Embedding of `dumpSchema`: errors only when no registration is
available; the `repo` flag merely overrides the printed identity. -/
def dumpSchema (reg : Option ServiceRegistration) (_repo : String) : Except String Unit :=
  match reg with
  | none => Except.error "no registration available (service not configured)"
  | some _ => Except.ok ()

/-- The loop body of `checkDependencies`: a lookup error or a missing
dependency forces `allFound` to false; an available one leaves it
unchanged. -/
def depStep (kvm : KVModel) (acc : Bool) (dep : String) : Bool :=
  match ServiceExists kvm dep with
  | Except.error _ => false
  | Except.ok true => acc
  | Except.ok false => false

/-- Embedding of `checkDependencies`: errors when the registration or the
KV handle is missing, succeeds when no dependencies are declared, and
otherwise errors exactly when some declared dependency is unavailable or
fails to check. -/
def checkDependencies (reg : Option ServiceRegistration) (kv : Option KVModel) :
    Except String Unit :=
  match reg with
  | none => Except.error "no registration available"
  | some r =>
    match kv with
    | none => Except.error "NATS KV not available (not connected to hub?)"
    | some kvm =>
      let deps := GetDependencies r.Fields
      if deps = [] then Except.ok ()
      else if deps.foldl (depStep kvm) true then Except.ok ()
      else Except.error "some dependencies not available"

/-- Embedding of `checkConsumerImpact`: errors when the KV handle is
missing or no service identity can be determined; the consumer count is
printed, never returned as an error. -/
def checkConsumerImpact (reg : Option ServiceRegistration) (kv : Option KVModel)
    (repo : String) : Except String Unit :=
  match kv with
  | none => Except.error "NATS KV not available (not connected to hub?)"
  | some _ =>
    let thisService :=
      if repo ≠ "" then repo
      else
        match reg with
        | some r =>
          if r.GitHub.Org ≠ "" then r.GitHub.Org ++ "/" ++ r.GitHub.Repo else ""
        | none => ""
    if thisService = "" then
      Except.error "service identity required (use --repo flag or set GitOrg/GitRepo)"
    else Except.ok ()

/-- The CLI's action flags.  `prSchema` is `some fr` when a `--pr-schema`
path was supplied, with `fr` the outcome of reading it. -/
structure CLIFlags where
  schemaDump : Bool
  checkDeps : Bool
  checkConsumers : Bool
  selfCheck : Bool
  prSchema : Option FileRead
  repo : String
  deriving Repr

/-- Embedding of `run()`: requires at least one action flag, then
dispatches in source order (`--schema-dump`, `--self`, `--check-deps`,
`--check-consumers`). -/
def runCLI (flags : CLIFlags) (reg : Option ServiceRegistration) (kv : Option KVModel) :
    Except String Unit :=
  if ¬ (flags.schemaDump ∨ flags.checkDeps ∨ flags.checkConsumers ∨ flags.selfCheck) then
    Except.error "at least one action flag required"
  else if flags.schemaDump then dumpSchema reg flags.repo
  else if flags.selfCheck then
    match selfCheckChanges reg flags.prSchema with
    | Except.error e => Except.error e
    | Except.ok _ => Except.ok ()
  else if flags.checkDeps then checkDependencies reg kv
  else if flags.checkConsumers then checkConsumerImpact reg kv flags.repo
  else Except.ok ()

/-- Embedding of `main()`: exit 0 when `run()` returns nil, exit 1
otherwise. -/
def cliExitCode (flags : CLIFlags) (reg : Option ServiceRegistration)
    (kv : Option KVModel) : Nat :=
  match runCLI flags reg kv with
  | Except.ok _ => 0
  | Except.error _ => 1

/-! ### Claim C6 — CLI exit codes -/

/-- A required secret field, present only in the current set. -/
def fDBPassword : FieldInfo :=
  ⟨"DB.Password", "string", "APP_DB_PASSWORD", "", true, true, ""⟩

/-- A required field present only in the PR schema. -/
def fPrOnly : FieldInfo :=
  ⟨"PrOnly", "string", "APP_PR_ONLY", "", true, false, ""⟩

/-- The current service: only the required `APP_DB_PASSWORD`. -/
def regCurrentC6 : ServiceRegistration :=
  ⟨⟨"acme", "svc", "", "", ""⟩, ⟨"i1", "", "t0"⟩, [fDBPassword]⟩

/-- The PR schema: only the required `APP_PR_ONLY`. -/
def regPrC6 : ServiceRegistration :=
  ⟨⟨"acme", "svc", "", "", ""⟩, ⟨"i2", "", "t0"⟩, [fPrOnly]⟩

/-- The `--self --pr-schema <file>` invocation against that PR schema. -/
def selfFlagsC6 : CLIFlags :=
  ⟨false, false, false, true, some (FileRead.ok regPrC6), ""⟩

/-- C6 counterexample: each side drops a required field of the other, so
whichever direction "removed required field" is read in (the spec's
`Removed` = present in current and absent in candidate, or the code's
`removed` label = present in the PR schema only), the diff reports a
required field as gone — yet the CLI exits 0.  There is no override flag:
`selfCheckChanges` returns nil whenever the schema file parses,
regardless of the diff's content. -/
theorem cli_self_removed_required_exit_zero_counterexample :
    cliExitCode selfFlagsC6 (some regCurrentC6) none = 0 ∧
    compareFields regCurrentC6.Fields regPrC6.Fields =
      [DriftEntry.added "APP_DB_PASSWORD" true, DriftEntry.removed "APP_PR_ONLY"] ∧
    fDBPassword.Required = true ∧ fPrOnly.Required = true := by
  refine ⟨by decide, by decide, by decide, by decide⟩

theorem depsFold_from_false (kvm : KVModel) (l : List String) :
    l.foldl (depStep kvm) false = false := by
  induction l with
  | nil => rfl
  | cons d t ih =>
    rw [List.foldl_cons]
    have hstep : depStep kvm false d = false := by
      unfold depStep
      cases h : ServiceExists kvm d with
      | error e => rfl
      | ok b => cases b <;> rfl
    rw [hstep, ih]

theorem depsFold_false (kvm : KVModel) (deps : List String) (dep : String)
    (hdep : dep ∈ deps) (hun : ServiceExists kvm dep = Except.ok false) :
    deps.foldl (depStep kvm) true = false := by
  induction deps with
  | nil => cases hdep
  | cons d t ih =>
    rw [List.foldl_cons]
    rcases List.mem_cons.mp hdep with rfl | hd
    · rw [show depStep kvm true dep = false by unfold depStep; rw [hun]]
      exact depsFold_from_false kvm t
    · cases h : depStep kvm true d with
      | true => exact ih hd
      | false => exact depsFold_from_false kvm t

/-- C6 (amended): the CLI exits 0 on success and non-zero when a
requested `--check-deps` run finds an unavailable dependency; but `--self`
never exits non-zero because of removed required fields (and no override
flag exists) — with a parseable PR schema it always exits 0, whatever the
drift. -/
theorem cli_exit_codes (reg : ServiceRegistration) (kvm : KVModel) (dep : String)
    (hdep : dep ∈ GetDependencies reg.Fields)
    (hun : ServiceExists kvm dep = Except.ok false) :
    cliExitCode ⟨false, true, false, false, none, ""⟩ (some reg) (some kvm) = 1 ∧
    (∀ prReg : ServiceRegistration,
      cliExitCode ⟨false, false, false, true, some (FileRead.ok prReg), ""⟩
        (some reg) (some kvm) = 0) := by
  constructor
  · have hne : GetDependencies reg.Fields ≠ [] := List.ne_nil_of_mem hdep
    have hfold := depsFold_false kvm (GetDependencies reg.Fields) dep hdep hun
    have hdeps : checkDependencies (some reg) (some kvm) =
        Except.error "some dependencies not available" := by
      unfold checkDependencies
      dsimp only
      rw [if_neg hne, hfold]
      rfl
    have hrun : runCLI ⟨false, true, false, false, none, ""⟩ (some reg) (some kvm) =
        checkDependencies (some reg) (some kvm) := by
      simp [runCLI]
    unfold cliExitCode
    rw [hrun, hdeps]
  · intro prReg
    have hrun : runCLI ⟨false, false, false, true, some (FileRead.ok prReg), ""⟩
        (some reg) (some kvm) = Except.ok () := by
      simp [runCLI, selfCheckChanges]
    unfold cliExitCode
    rw [hrun]

/-- C6 witness: the amended theorem at a concrete registration with one
dependency that is not present in a concrete registry. -/
theorem cli_exit_codes_witness :
    cliExitCode ⟨false, true, false, false, none, ""⟩
      (some ⟨⟨"acme", "svc", "", "", ""⟩, ⟨"i1", "", "t0"⟩,
        [⟨"Dep", "string", "APP_DEP", "", false, false, "acme/other"⟩]⟩) (some []) = 1 ∧
    (∀ prReg : ServiceRegistration,
      cliExitCode ⟨false, false, false, true, some (FileRead.ok prReg), ""⟩
        (some ⟨⟨"acme", "svc", "", "", ""⟩, ⟨"i1", "", "t0"⟩,
          [⟨"Dep", "string", "APP_DEP", "", false, false, "acme/other"⟩]⟩) (some []) = 0) :=
  cli_exit_codes _ [] "acme/other" (by decide) (by rfl)

/-! ### Claim C8 — the registry key written by `Register` -/

/-- Embedding of the key computation in `Registrar.Register`: `KVKey`
when both org and repo are set from ldflags, otherwise the dev fallback
`"unknown." + instance ID`. -/
def registerKey (reg : ServiceRegistration) : String :=
  if reg.GitHub.Org ≠ "" ∧ reg.GitHub.Repo ≠ "" then reg.KVKey
  else "unknown." ++ reg.Instance.ID

/-- A registration from a dev build without ldflags: empty org and repo. -/
def regNoLdflags : ServiceRegistration :=
  ⟨⟨"", "", "", "", ""⟩, ⟨"abc12345", "", "t0"⟩, []⟩

/-- C8 counterexample: with empty org/repo (ldflags unset), `Register`
writes under `"unknown.<instanceID>"`, not under
`org + "." + repo + "." + instanceID`. -/
theorem registerKey_counterexample :
    registerKey regNoLdflags ≠
      regNoLdflags.GitHub.Org ++ "." ++ regNoLdflags.GitHub.Repo ++ "." ++
        regNoLdflags.Instance.ID ∧
    registerKey regNoLdflags = "unknown.abc12345" := by
  constructor
  · decide
  · decide

/-- C8 (amended): whenever org and repo are both non-empty, the key
written by `Register` is exactly
`org + "." + repo + "." + instanceID` (i.e. `KVKey`). -/
theorem registerKey_eq_identity_dot_instance (reg : ServiceRegistration)
    (ho : reg.GitHub.Org ≠ "") (hr : reg.GitHub.Repo ≠ "") :
    registerKey reg =
      reg.GitHub.Org ++ "." ++ reg.GitHub.Repo ++ "." ++ reg.Instance.ID := by
  unfold registerKey
  rw [if_pos ⟨ho, hr⟩]
  rfl

/-- A registration built with both ldflags set. -/
def regWithLdflags : ServiceRegistration :=
  ⟨⟨"joeblew999", "wellnown-env", "", "", ""⟩, ⟨"deadbeef", "", "t0"⟩, []⟩

/-- C8 witness: the amended theorem at a populated registration. -/
theorem registerKey_eq_identity_dot_instance_witness :
    registerKey regWithLdflags =
      regWithLdflags.GitHub.Org ++ "." ++ regWithLdflags.GitHub.Repo ++ "." ++
        regWithLdflags.Instance.ID :=
  registerKey_eq_identity_dot_instance regWithLdflags (by decide) (by decide)

/-! ### Registrar concurrency (`pkg/env/register.go`)

The heartbeat goroutine and `Deregister` race on the mutex `r.mu`, the
`r.stopped` flag and the registration key in the KV store.  They are
modelled as an interleaving transition system: lock acquisition is one
step, and each statement executed under the lock is its own step, so any
interleaving the Go scheduler can produce is a path of `rstep`.
`kv.Put` is `hbStore true/false` (success or error — the code logs the
error and continues); `kv.Delete` happens inside `dBody` together with
`r.stopped = true` and `close(r.stopCh)`, all under the lock as in the
source. -/

inductive HBPhase where
  | idle
  | locked
  | storing
  | stored
  | exited
  deriving DecidableEq, Repr

inductive DPhase where
  | idle
  | locked
  | done
  deriving DecidableEq, Repr

inductive LockOwner where
  | hb
  | dereg
  deriving DecidableEq, Repr

/-- The shared state: who holds `r.mu`, the `r.stopped` flag, whether the
registration key is present in the KV store, the two goroutines' program
counters, the log, and a history flag recording whether any `r.store`
attempt was made after `Deregister` returned. -/
structure RState where
  lock : Option LockOwner
  stopped : Bool
  kvKey : Bool
  hbPhase : HBPhase
  dPhase : DPhase
  log : List String
  badStore : Bool
  deriving DecidableEq, Repr

inductive RAction where
  | hbAcquire
  | hbCheck
  | hbStore (ok : Bool)
  | hbRelease
  | dAcquire
  | dBody
  deriving DecidableEq, Repr

/-- The message printed by the heartbeat loop when a store fails. -/
def hbFailLog : String := "heartbeat failed"

/-- One interleaving step; `none` when the action is not enabled in `s`.
`hbAcquire` is the tick firing and `r.mu.Lock()`; `hbCheck` reads
`r.stopped` and either returns (unlocking via defer-free explicit unlock
as in the source) or proceeds to store; `hbStore ok` attempts `r.store`
(on failure it logs and continues); `hbRelease` is the `r.mu.Unlock()`
ending the tick; `dAcquire` is `Deregister`'s `r.mu.Lock()`; `dBody` is
the rest of `Deregister`: set `r.stopped`, close `r.stopCh`, delete the
key, unlock and return. -/
def rstep (s : RState) : RAction → Option RState
  | RAction.hbAcquire =>
    if s.hbPhase = HBPhase.idle ∧ s.lock = none then
      some { s with lock := some LockOwner.hb, hbPhase := HBPhase.locked }
    else none
  | RAction.hbCheck =>
    if s.hbPhase = HBPhase.locked then
      if s.stopped then some { s with lock := none, hbPhase := HBPhase.exited }
      else some { s with hbPhase := HBPhase.storing }
    else none
  | RAction.hbStore ok =>
    if s.hbPhase = HBPhase.storing then
      some { s with
        kvKey := if ok then true else s.kvKey,
        log := if ok then s.log else hbFailLog :: s.log,
        badStore := s.badStore || decide (s.dPhase = DPhase.done),
        hbPhase := HBPhase.stored }
    else none
  | RAction.hbRelease =>
    if s.hbPhase = HBPhase.stored then
      some { s with lock := none, hbPhase := HBPhase.idle }
    else none
  | RAction.dAcquire =>
    if s.dPhase = DPhase.idle ∧ s.lock = none then
      some { s with lock := some LockOwner.dereg, dPhase := DPhase.locked }
    else none
  | RAction.dBody =>
    if s.dPhase = DPhase.locked then
      some { s with stopped := true, kvKey := false, lock := none, dPhase := DPhase.done }
    else none

/-- Initial state: lock free, not stopped, key present (written by the
initial synchronous store in `Register`), both routines at their entry. -/
def rinit : RState :=
  ⟨none, false, true, HBPhase.idle, DPhase.idle, [], false⟩

/-- Run an interleaving from the initial state; disabled actions are
skipped (the scheduler cannot execute them). -/
def rrun (acts : List RAction) : RState :=
  acts.foldl (fun s a => (rstep s a).getD s) rinit

/-- The inductive invariant of the registrar system: lock ownership
matches the program counters, `Deregister` completion implies `stopped`
and key absence, the heartbeat only stores after seeing
`stopped = false`, no store attempt ever happens after `Deregister`
returned, and the heartbeat loop only exits after a stop request. -/
def RInv (s : RState) : Prop :=
  ((s.hbPhase = HBPhase.locked ∨ s.hbPhase = HBPhase.storing ∨ s.hbPhase = HBPhase.stored) →
    s.lock = some LockOwner.hb) ∧
  (s.dPhase = DPhase.locked → s.lock = some LockOwner.dereg) ∧
  (s.dPhase = DPhase.done → s.stopped = true) ∧
  (s.hbPhase = HBPhase.storing → s.stopped = false) ∧
  (s.dPhase = DPhase.done → s.kvKey = false) ∧
  s.badStore = false ∧
  (s.hbPhase = HBPhase.exited → s.stopped = true)

theorem rstep_preserves {s s' : RState} {a : RAction} (hinv : RInv s)
    (h : rstep s a = some s') : RInv s' := by
  obtain ⟨i1, i2, i3, i4, i5, i6, i7⟩ := hinv
  cases a with
  | hbAcquire =>
    rw [rstep] at h
    by_cases hc : s.hbPhase = HBPhase.idle ∧ s.lock = none
    · rw [if_pos hc] at h
      obtain ⟨hph, hlk⟩ := hc
      injection h with h
      subst h
      refine ⟨fun _ => rfl, ?_, i3, ?_, i5, i6, ?_⟩
      · intro hd
        exact Option.noConfusion ((i2 hd).symm.trans hlk)
      · intro hx
        cases hx
      · intro hx
        cases hx
    · rw [if_neg hc] at h
      exact Option.noConfusion h
  | hbCheck =>
    rw [rstep] at h
    by_cases h1 : s.hbPhase = HBPhase.locked
    · rw [if_pos h1] at h
      by_cases h2 : s.stopped = true
      · rw [if_pos h2] at h
        injection h with h
        subst h
        refine ⟨?_, ?_, i3, ?_, i5, i6, fun _ => h2⟩
        · intro hx
          rcases hx with hx | hx | hx <;> cases hx
        · intro hd
          exact absurd ((i2 hd).symm.trans (i1 (Or.inl h1))) (by simp)
        · intro hx
          cases hx
      · rw [if_neg h2] at h
        injection h with h
        subst h
        refine ⟨fun _ => i1 (Or.inl h1), i2, i3, fun _ => by simpa using h2, i5, i6, ?_⟩
        intro hx
        cases hx
    · rw [if_neg h1] at h
      exact Option.noConfusion h
  | hbStore ok =>
    rw [rstep] at h
    by_cases h1 : s.hbPhase = HBPhase.storing
    · rw [if_pos h1] at h
      injection h with h
      subst h
      have hst : s.stopped = false := i4 h1
      have hdd : s.dPhase ≠ DPhase.done := by
        intro hd
        rw [i3 hd] at hst
        cases hst
      refine ⟨fun _ => i1 (Or.inr (Or.inl h1)), i2, i3, ?_, ?_, ?_, ?_⟩
      · intro hx
        cases hx
      · intro hd
        exact absurd hd hdd
      · show (s.badStore || decide (s.dPhase = DPhase.done)) = false
        rw [i6]
        simp [hdd]
      · intro hx
        cases hx
    · rw [if_neg h1] at h
      exact Option.noConfusion h
  | hbRelease =>
    rw [rstep] at h
    by_cases h1 : s.hbPhase = HBPhase.stored
    · rw [if_pos h1] at h
      injection h with h
      subst h
      refine ⟨?_, ?_, i3, ?_, i5, i6, ?_⟩
      · intro hx
        rcases hx with hx | hx | hx <;> cases hx
      · intro hd
        exact absurd ((i2 hd).symm.trans (i1 (Or.inr (Or.inr h1)))) (by simp)
      · intro hx
        cases hx
      · intro hx
        cases hx
    · rw [if_neg h1] at h
      exact Option.noConfusion h
  | dAcquire =>
    rw [rstep] at h
    by_cases hc : s.dPhase = DPhase.idle ∧ s.lock = none
    · rw [if_pos hc] at h
      obtain ⟨hph, hlk⟩ := hc
      injection h with h
      subst h
      refine ⟨?_, fun _ => rfl, ?_, i4, ?_, i6, i7⟩
      · intro hx
        exact Option.noConfusion ((i1 hx).symm.trans hlk)
      · intro hd
        cases hd
      · intro hd
        cases hd
    · rw [if_neg hc] at h
      exact Option.noConfusion h
  | dBody =>
    rw [rstep] at h
    by_cases h1 : s.dPhase = DPhase.locked
    · rw [if_pos h1] at h
      injection h with h
      subst h
      refine ⟨?_, ?_, fun _ => rfl, ?_, fun _ => rfl, i6, fun _ => rfl⟩
      · intro hx
        exact absurd ((i1 hx).symm.trans (i2 h1)) (by simp)
      · intro hd
        cases hd
      · intro hx
        exact absurd ((i1 (Or.inr (Or.inl hx))).symm.trans (i2 h1)) (by simp)
    · rw [if_neg h1] at h
      exact Option.noConfusion h

theorem rrun_inv (acts : List RAction) : RInv (rrun acts) := by
  suffices h : ∀ s, RInv s → RInv (acts.foldl (fun s a => (rstep s a).getD s) s) by
    refine h rinit ⟨?_, ?_, ?_, ?_, ?_, rfl, ?_⟩ <;> intro hx
    · rcases hx with hx | hx | hx <;> cases hx
    · cases hx
    · cases hx
    · cases hx
    · cases hx
    · cases hx
  intro s hs
  induction acts generalizing s with
  | nil => exact hs
  | cons a t ih =>
    rw [List.foldl_cons]
    apply ih
    cases hst : rstep s a with
    | none => simpa [hst] using hs
    | some s2 => simpa [hst] using rstep_preserves hs hst

/-! ### Claim C3 — no heartbeat store and no key after `Deregister` -/

/-- C3 (confirmed): in every interleaving in which `Deregister` has
returned, the registration key is absent from the KV store (so an
immediate snapshot read cannot observe it) and no heartbeat store
attempt ever happened after `Deregister` returned — the stop transition
and the heartbeat's check-then-write both run under `r.mu`, so they are
mutually exclusive. -/
theorem deregister_no_resurrection (acts : List RAction)
    (h : (rrun acts).dPhase = DPhase.done) :
    (rrun acts).kvKey = false ∧ (rrun acts).badStore = false := by
  obtain ⟨i1, i2, i3, i4, i5, i6, i7⟩ := rrun_inv acts
  exact ⟨i5 h, i6⟩

/-- C3 witness: a deregistration interleaved with nothing. -/
theorem deregister_no_resurrection_witness :
    (rrun [RAction.dAcquire, RAction.dBody]).kvKey = false ∧
    (rrun [RAction.dAcquire, RAction.dBody]).badStore = false :=
  deregister_no_resurrection [RAction.dAcquire, RAction.dBody] (by decide)

/-! ### Claim C7 — heartbeat survives store failures -/

/-- The registrar state after a failed store attempt from state `s`:
the error is logged and the loop simply moves on. -/
def afterFailedStore (s : RState) : RState :=
  { s with log := hbFailLog :: s.log,
           badStore := s.badStore || decide (s.dPhase = DPhase.done),
           hbPhase := HBPhase.stored }

/-- C7 (confirmed): the heartbeat loop can only exit after a stop was
requested (`stopped = true`); a store error never terminates it.
Concretely, from any state about to store, a FAILING store logs
`heartbeat failed`, moves on (phase `stored`), and the following unlock
returns the loop to `idle`, ready for the next tick. -/
theorem heartbeat_store_error_never_exits (acts : List RAction) (s : RState)
    (hs : s.hbPhase = HBPhase.storing) :
    ((rrun acts).hbPhase = HBPhase.exited → (rrun acts).stopped = true) ∧
    ∃ s', rstep s (RAction.hbStore false) = some s' ∧
      s'.hbPhase = HBPhase.stored ∧ s'.log = hbFailLog :: s.log ∧
      rstep s' RAction.hbRelease =
        some { s' with lock := none, hbPhase := HBPhase.idle } := by
  constructor
  · exact fun hx => (rrun_inv acts).2.2.2.2.2.2 hx
  · refine ⟨afterFailedStore s, ?_, rfl, rfl, ?_⟩
    · rw [rstep, if_pos hs]
      rfl
    · rw [rstep]
      rfl

/-- C7 witness: after a completed deregistration the loop exits with
`stopped = true`; and a concrete storing state failing its store stays
in the loop. -/
theorem heartbeat_store_error_never_exits_witness :
    ((rrun [RAction.dAcquire, RAction.dBody, RAction.hbAcquire,
        RAction.hbCheck]).hbPhase = HBPhase.exited →
      (rrun [RAction.dAcquire, RAction.dBody, RAction.hbAcquire,
        RAction.hbCheck]).stopped = true) ∧
    ∃ s', rstep ⟨some LockOwner.hb, false, true, HBPhase.storing, DPhase.idle, [], false⟩
        (RAction.hbStore false) = some s' ∧
      s'.hbPhase = HBPhase.stored ∧ s'.log = [hbFailLog] ∧
      rstep s' RAction.hbRelease =
        some { s' with lock := none, hbPhase := HBPhase.idle } :=
  heartbeat_store_error_never_exits
    [RAction.dAcquire, RAction.dBody, RAction.hbAcquire, RAction.hbCheck]
    ⟨some LockOwner.hb, false, true, HBPhase.storing, DPhase.idle, [], false⟩ rfl

/-! ### Claim C10 — calling `Deregister` twice panics -/

/-- The registrar state relevant to a (sequential) caller of
`Deregister`: whether `r.stopCh` has already been closed, the `r.stopped`
flag, the key, and whether the key is present in the KV store. -/
structure DeregState where
  stopChClosed : Bool
  stopped : Bool
  key : String
  kvHasKey : Bool
  deriving DecidableEq, Repr

/-- Embedding of `Registrar.Deregister` for sequential calls: it sets
`r.stopped = true`, unconditionally executes `close(r.stopCh)` — per the
Go specification, closing an already-closed channel causes a run-time
panic, modelled as `none` — and then deletes the key when it is
non-empty. -/
def Deregister (s : DeregState) : Option DeregState :=
  if s.stopChClosed then none
  else
    some { s with stopped := true, stopChClosed := true,
                  kvHasKey := if s.key = "" then s.kvHasKey else false }

/-- C10 (confirmed): `Deregister` is not safe to call twice — after any
successful call, a second call panics, because it unconditionally closes
the already-closed `stopCh`. -/
theorem deregister_twice_panics (s s' : DeregState)
    (h : Deregister s = some s') : Deregister s' = none := by
  unfold Deregister at h
  by_cases hc : s.stopChClosed = true
  · rw [if_pos hc] at h
    exact Option.noConfusion h
  · rw [if_neg hc] at h
    injection h with h
    subst h
    rfl

/-- C10 witness: a concrete registrar deregistered once, then again. -/
theorem deregister_twice_panics_witness :
    Deregister ⟨true, true, "acme.svc.i1", false⟩ = none :=
  deregister_twice_panics ⟨false, false, "acme.svc.i1", true⟩
    ⟨true, true, "acme.svc.i1", false⟩ (by rfl)

/-! ### Watcher stop semantics (`pkg/env/discovery.go`)

`WatchService` and `WatchAll` share the same loop shape: a goroutine in a
`select` over `sw.stopCh` and `watcher.Updates()`, and a `Stop()` that
closes `stopCh` and stops the subscription WITHOUT waiting for the
goroutine.  Modelled as an interleaving transition system over one
watcher. -/

inductive WGo where
  | running
  | exited
  deriving DecidableEq, Repr

/-- State of one watcher: whether `sw.stopCh` is closed, whether `Stop()`
has returned to its caller, the entries already delivered to the
`watcher.Updates()` channel and not yet consumed, and the goroutine's
status. -/
structure WState where
  stopClosed : Bool
  stopReturned : Bool
  pending : List String
  go : WGo
  deriving DecidableEq, Repr

inductive WAction where
  | stopCall
  | selectStop
  | selectUpdate
  deriving DecidableEq, Repr

/-- One step; the second component is the callback invocation performed
by the step, if any.  `stopCall` is the whole of `Stop()`:
`close(w.stopCh); w.kvWatcher.Stop()` and return — it does NOT
synchronise with the goroutine.  `selectStop` is the goroutine's select
choosing the `<-sw.stopCh` case and returning; `selectUpdate` is the
select choosing the `<-watcher.Updates()` case and running the loop body
through `fn(reg)`.  When `stopCh` is closed AND an update is pending,
both select cases are ready and Go chooses pseudo-randomly, so both
actions remain enabled. -/
def wstep (s : WState) : WAction → Option (WState × Option String)
  | WAction.stopCall =>
    if s.stopClosed then none
    else some ({ s with stopClosed := true, stopReturned := true }, none)
  | WAction.selectStop =>
    if s.go = WGo.running ∧ s.stopClosed then some ({ s with go := WGo.exited }, none)
    else none
  | WAction.selectUpdate =>
    match s.go, s.pending with
    | WGo.running, e :: rest => some ({ s with pending := rest }, some e)
    | _, _ => none

/-- Run an interleaving, recording every callback invocation tagged with
whether `Stop()` had already returned when the callback started. -/
def wrun (s : WState) : List WAction → WState × List (String × Bool)
  | [] => (s, [])
  | a :: rest =>
    match wstep s a with
    | none => wrun s rest
    | some (s', cb) =>
      let r := wrun s' rest
      (r.1, (match cb with
             | some e => [(e, s'.stopReturned)]
             | none => []) ++ r.2)

/-- A watcher with one update already delivered to `Updates()` and the
goroutine still in its select. -/
def winit : WState := ⟨false, false, ["reg1"], WGo.running⟩

/-- C2 counterexample: with one update already buffered when `Stop()` is
called, the interleaving "`Stop()` runs and returns; then the goroutine's
select takes the updates case" is legal, and the callback runs AFTER
`Stop()` has returned (the `true` tag).  `Stop()` never waits for the
goroutine, so the claimed guarantee fails. -/
theorem watcher_callback_after_stop_counterexample :
    (wrun winit [WAction.stopCall, WAction.selectUpdate]).2 = [("reg1", true)] := by
  decide

/-- C2 (amended): `Stop()` closes the stop channel and stops the
subscription but does not synchronise with the background goroutine, so
a callback may still start after `Stop()` returns when an event was
already pending.  What does hold: once the goroutine has observed the
stop signal and exited, no callback ever runs again. -/
theorem watcher_no_callback_after_exit (s : WState) (acts : List WAction)
    (h : s.go = WGo.exited) : (wrun s acts).2 = [] := by
  induction acts generalizing s with
  | nil => rfl
  | cons a t ih =>
    rw [wrun]
    cases a with
    | stopCall =>
      by_cases hc : s.stopClosed = true
      · rw [wstep, if_pos hc]
        exact ih s h
      · rw [wstep, if_neg hc]
        simpa using ih { s with stopClosed := true, stopReturned := true } h
    | selectStop =>
      have hn : ¬ (s.go = WGo.running ∧ s.stopClosed = true) := by
        rintro ⟨hg, -⟩
        rw [h] at hg
        cases hg
      rw [wstep, if_neg hn]
      exact ih s h
    | selectUpdate =>
      have hstep : wstep s WAction.selectUpdate = none := by
        rw [wstep, h]
      rw [hstep]
      exact ih s h

/-- C2 witness: a stopped-and-exited watcher with a still-pending update
processes nothing. -/
theorem watcher_no_callback_after_exit_witness :
    (wrun ⟨true, true, ["reg1"], WGo.exited⟩
      [WAction.selectUpdate, WAction.stopCall, WAction.selectStop]).2 = [] :=
  watcher_no_callback_after_exit ⟨true, true, ["reg1"], WGo.exited⟩
    [WAction.selectUpdate, WAction.stopCall, WAction.selectStop] rfl

end WellKnown
